import Mathlib

/-!
Shallow embedding of `scripts/generate-seed-db.py`, the seed-database
generation tool of the verse-mate-mobile repository.

The script fetches JSON content from an API and loads it into a SQLite
file.  We model:
  * JSON scalar values (`Value`: null, integer, string) and JSON objects
    (`Obj`, association lists), with Python's `d[k]` (KeyError on a
    missing key, modelled with `Except`) and `d.get(k)` / `d.get(k, dflt)`
    access;
  * each table as a list of typed rows; `INSERT OR IGNORE` keyed on the
    table's UNIQUE constraint (`insertOrIgnore`) and `INSERT OR REPLACE`
    on the primary key (`insertOrReplace`);
  * the batch loader `insert_in_batches` (chunks of `BATCH_SIZE`, one
    commit per chunk) together with the list of committed states
    (`commitStates`) reached at each commit point;
  * the record mappers of `insert_verses`, `insert_commentaries` and
    `insert_topics`, and the manifest lookups and load pipeline of `main`.
-/

namespace SeedDB

/-- A JSON scalar as stored in the seed database: SQL NULL / Python `None`,
an integer, or a string. -/
inductive Value where
  | null : Value
  | int (i : Int) : Value
  | str (s : String) : Value
deriving DecidableEq, Repr

/-- A decoded JSON object: an association list from field names to values. -/
abbrev Obj : Type := List (String × Value)

/-- Field lookup in a JSON object (the value bound to key `k`, if any). -/
def lookupField (o : Obj) (k : String) : Option Value :=
  (o.find? (fun p => p.1 = k)).map (fun p => p.2)

/-- Python `o[k]`: the bound value, or a KeyError that aborts the run. -/
def getReq (o : Obj) (k : String) : Except String Value :=
  match lookupField o k with
  | some v => .ok v
  | none => .error ("KeyError: " ++ k)

/-- Python `o.get(k)`: the bound value, or `None` when the key is absent. -/
def getOpt (o : Obj) (k : String) : Value :=
  (lookupField o k).getD Value.null

/-- Python `o.get(k, d)`: the bound value, or default `d` when absent. -/
def getOptD (o : Obj) (k : String) (d : Value) : Value :=
  (lookupField o k).getD d

/-- A row of `offline_verses` (the `id` AUTOINCREMENT column is implicit). -/
structure VerseRow where
  version_key : Value
  book_id : Value
  chapter_number : Value
  verse_number : Value
  text : Value
deriving DecidableEq, Repr

/-- The UNIQUE(version_key, book_id, chapter_number, verse_number) key. -/
def verseKey (r : VerseRow) : Value × Value × Value × Value :=
  (r.version_key, r.book_id, r.chapter_number, r.verse_number)

/-- A row of `offline_explanations`. -/
structure ExplRow where
  language_code : Value
  explanation_id : Value
  book_id : Value
  chapter_number : Value
  verse_start : Value
  verse_end : Value
  type : Value
  explanation : Value
deriving DecidableEq, Repr

/-- The UNIQUE(language_code, explanation_id) key. -/
def explKey (r : ExplRow) : Value × Value :=
  (r.language_code, r.explanation_id)

/-- A row of `offline_topics`. -/
structure TopicRow where
  language_code : Value
  topic_id : Value
  name : Value
  content : Value
  category : Value
  sort_order : Value
deriving DecidableEq, Repr

/-- The UNIQUE(language_code, topic_id) key. -/
def topicKey (r : TopicRow) : Value × Value :=
  (r.language_code, r.topic_id)

/-- A row of `offline_topic_references`. -/
structure TopicRefRow where
  topic_id : Value
  reference_content : Value
deriving DecidableEq, Repr

/-- The UNIQUE(topic_id) key. -/
def topicRefKey (r : TopicRefRow) : Value :=
  r.topic_id

/-- A row of `offline_topic_explanations`. -/
structure TopicExplRow where
  language_code : Value
  topic_id : Value
  type : Value
  explanation : Value
deriving DecidableEq, Repr

/-- The UNIQUE(language_code, topic_id, type) key. -/
def topicExplKey (r : TopicExplRow) : Value × Value × Value :=
  (r.language_code, r.topic_id, r.type)

/-- A row of `offline_notes` (declared in the schema, never written here). -/
structure NoteRow where
  note_id : Value
  book_id : Value
  chapter_number : Value
  verse_number : Value
  content : Value
  updated_at : Value
deriving DecidableEq, Repr

/-- A row of `offline_highlights` (declared in the schema, never written here). -/
structure HighlightRow where
  highlight_id : Value
  book_id : Value
  chapter_number : Value
  start_verse : Value
  end_verse : Value
  color : Value
  start_char : Value
  end_char : Value
  updated_at : Value
deriving DecidableEq, Repr

/-- A row of `offline_bookmarks` (declared in the schema, never written here). -/
structure BookmarkRow where
  favorite_id : Value
  book_id : Value
  chapter_number : Value
  created_at : Value
deriving DecidableEq, Repr

/-- A row of `offline_metadata`. -/
structure MetaRow where
  resource_key : Value
  last_updated_at : Value
  downloaded_at : Value
  size_bytes : Value
deriving DecidableEq, Repr

/-- The PRIMARY KEY(resource_key). -/
def metaKey (r : MetaRow) : Value :=
  r.resource_key

/-- The database: one list of rows per table of the schema, in insertion
order. -/
structure DB where
  offline_verses : List VerseRow
  offline_explanations : List ExplRow
  offline_topics : List TopicRow
  offline_topic_references : List TopicRefRow
  offline_topic_explanations : List TopicExplRow
  offline_notes : List NoteRow
  offline_highlights : List HighlightRow
  offline_bookmarks : List BookmarkRow
  offline_metadata : List MetaRow
deriving DecidableEq, Repr

/-- `create_schema` on the fresh file (`main` removes any existing output
file first): all tables exist and are empty. -/
def create_schema : DB :=
  ⟨[], [], [], [], [], [], [], [], []⟩

/-- SQLite `INSERT OR IGNORE` keyed on a UNIQUE constraint: the new row is
appended unless a stored row already has its key, in which case the
statement is a silent no-op. -/
def insertOrIgnore {ρ κ : Type} [DecidableEq κ] (key : ρ → κ) (t : List ρ) (r : ρ) :
    List ρ :=
  if key r ∈ t.map key then t else t ++ [r]

/-- SQLite `INSERT OR REPLACE` keyed on the primary key: any stored row
with the new row's key is deleted, then the new row is inserted. -/
def insertOrReplace {ρ κ : Type} [DecidableEq κ] (key : ρ → κ) (t : List ρ) (r : ρ) :
    List ρ :=
  (t.filter (fun x => key x ≠ key r)) ++ [r]

/-- `BATCH_SIZE = 1000` from the script. -/
def BATCH_SIZE : Nat := 1000

/-- The chunking of the loop `for i in range(0, total, n): rows[i : i + n]`:
contiguous chunks of at most `n` rows.  (The loop is only ever run with
`n = BATCH_SIZE > 0`; the `n = 0` branch is a total-function artifact, as
`range` with step 0 is an error in the source language.) -/
def chunksOf {α : Type} (n : Nat) (l : List α) : List (List α) :=
  match l with
  | [] => []
  | x :: xs =>
    if h : n = 0 then [x :: xs]
    else (x :: xs).take n :: chunksOf n ((x :: xs).drop n)
termination_by l.length
decreasing_by
  simp only [List.length_drop, List.length_cons]
  omega

/-- `insert_in_batches`: split `rows` into chunks of at most `n`, and for
each chunk execute the per-row insert `ins` once per row (`executemany`)
and then commit the chunk.  The result is the final committed state. -/
def insert_in_batches {σ ρ : Type} (ins : σ → ρ → σ) (db : σ) (rows : List ρ) (n : Nat) :
    σ :=
  (chunksOf n rows).foldl (fun s c => c.foldl ins s) db

/-- The committed database states of an `insert_in_batches` run: the state
before any commit, followed by the state after each chunk's commit.  A
crash while processing a chunk leaves the database at the last of the
states reached so far (the failed chunk's uncommitted writes are rolled
back). -/
def commitStates {σ ρ : Type} (ins : σ → ρ → σ) (db : σ) (rows : List ρ) (n : Nat) :
    List σ :=
  (chunksOf n rows).scanl (fun s c => c.foldl ins s) db

/-- Deduplication of a row sequence by key, keeping the first occurrence
of each key (stated from the spec's words "the full deduplicated input";
compared against the loader's result). -/
def dedupKeepFirst {ρ κ : Type} [DecidableEq κ] (key : ρ → κ) : List ρ → List ρ
  | [] => []
  | r :: rs => r :: dedupKeepFirst key (rs.filter (fun x => key x ≠ key r))
termination_by l => l.length
decreasing_by
  exact Nat.lt_succ_of_le (List.length_filter_le _ _)

/-- The verse record mapper of `insert_verses`:
`(version_key, v["book_id"], v["chapter_number"], v["verse_number"], v["text"])`. -/
def mapVerse (version_key : String) (v : Obj) : Except String VerseRow := do
  let b ← getReq v "book_id"
  let c ← getReq v "chapter_number"
  let n ← getReq v "verse_number"
  let t ← getReq v "text"
  pure ⟨Value.str version_key, b, c, n, t⟩

/-- The commentary record mapper of `insert_commentaries`: required fields
via `e[...]`, optional `verse_start` / `verse_end` via `e.get(...)`. -/
def mapCommentary (language_code : String) (e : Obj) : Except String ExplRow := do
  let eid ← getReq e "explanation_id"
  let b ← getReq e "book_id"
  let c ← getReq e "chapter_number"
  let ty ← getReq e "type"
  let ex ← getReq e "explanation"
  pure ⟨Value.str language_code, eid, b, c,
        getOpt e "verse_start", getOpt e "verse_end", ty, ex⟩

/-- The topic record mapper of `insert_topics`: required fields via
`t[...]`, `t.get("category", "")`, `t.get("sort_order")`. -/
def mapTopic (t : Obj) : Except String TopicRow := do
  let lc ← getReq t "language_code"
  let tid ← getReq t "topic_id"
  let nm ← getReq t "name"
  let ct ← getReq t "content"
  pure ⟨lc, tid, nm, ct, getOptD t "category" (Value.str ""), getOpt t "sort_order"⟩

/-- The topic-reference record mapper of `insert_topics`:
`(r["topic_id"], r["reference_content"])`. -/
def mapTopicRef (r : Obj) : Except String TopicRefRow := do
  let tid ← getReq r "topic_id"
  let rc ← getReq r "reference_content"
  pure ⟨tid, rc⟩

/-- The topic-explanation record mapper of `insert_topics`:
`(e["language_code"], e["topic_id"], e["type"], e["explanation"])`. -/
def mapTopicExpl (e : Obj) : Except String TopicExplRow := do
  let lc ← getReq e "language_code"
  let tid ← getReq e "topic_id"
  let ty ← getReq e "type"
  let ex ← getReq e "explanation"
  pure ⟨lc, tid, ty, ex⟩

/-- `insert_verses`: map every verse object to a row (a KeyError aborts),
then batch-load into `offline_verses` with `INSERT OR IGNORE`. -/
def insert_verses (db : DB) (version_key : String) (verses : List Obj) :
    Except String DB := do
  let rows ← verses.mapM (mapVerse version_key)
  pure { db with
    offline_verses :=
      insert_in_batches (insertOrIgnore verseKey) db.offline_verses rows BATCH_SIZE }

/-- `insert_commentaries`: map every entry to a row, then batch-load into
`offline_explanations` with `INSERT OR IGNORE`. -/
def insert_commentaries (db : DB) (language_code : String) (entries : List Obj) :
    Except String DB := do
  let rows ← entries.mapM (mapCommentary language_code)
  pure { db with
    offline_explanations :=
      insert_in_batches (insertOrIgnore explKey) db.offline_explanations rows BATCH_SIZE }

/-- `insert_topics`: batch-load topics, then topic references, then topic
explanations; the reference and explanation loads are skipped entirely
when the mapped row list is empty (`if ref_rows:` / `if exp_rows:`). -/
def insert_topics (db : DB) (topics references explanations : List Obj) :
    Except String DB := do
  let topicRows ← topics.mapM mapTopic
  let db1 : DB := { db with
    offline_topics :=
      insert_in_batches (insertOrIgnore topicKey) db.offline_topics topicRows BATCH_SIZE }
  let refRows ← references.mapM mapTopicRef
  let db2 : DB :=
    if refRows.isEmpty then db1
    else { db1 with
      offline_topic_references :=
        insert_in_batches (insertOrIgnore topicRefKey) db1.offline_topic_references
          refRows BATCH_SIZE }
  let expRows ← explanations.mapM mapTopicExpl
  let db3 : DB :=
    if expRows.isEmpty then db2
    else { db2 with
      offline_topic_explanations :=
        insert_in_batches (insertOrIgnore topicExplKey) db2.offline_topic_explanations
          expRows BATCH_SIZE }
  pure db3

/-- The metadata write of `main`: one `executemany` of
`INSERT OR REPLACE INTO offline_metadata`, then a commit. -/
def writeMetadata (db : DB) (rows : List MetaRow) : DB :=
  { db with
    offline_metadata := rows.foldl (insertOrReplace metaKey) db.offline_metadata }

/-- The manifest: the three lists `main` scans. -/
structure Manifest where
  bible_versions : List Obj
  commentary_languages : List Obj
  topic_languages : List Obj
deriving DecidableEq, Repr

/-- Python `next(v for v in objs if v[field] == val)`: scan the list; a
missing `field` raises a KeyError, an exhausted scan raises StopIteration,
either of which aborts the run. -/
def findByField (field : String) (val : String) : List Obj → Except String Obj
  | [] => .error "StopIteration"
  | o :: rest =>
    match lookupField o field with
    | none => .error ("KeyError: " ++ field)
    | some v => if v = Value.str val then .ok o else findByField field val rest

/-- The three manifest lookups of `main`: the NASB1995 Bible version, the
en-US commentary language, and the en topic language. -/
def lookupManifestEntries (m : Manifest) : Except String (Obj × Obj × Obj) := do
  let nasb ← findByField "key" "NASB1995" m.bible_versions
  let enC ← findByField "code" "en-US" m.commentary_languages
  let enT ← findByField "code" "en" m.topic_languages
  pure (nasb, enC, enT)

/-- The database-population pipeline of `main`, from the fresh file
onwards: manifest lookups, schema creation, the three content loads, and
the metadata write.  `nowIso` is the run timestamp; the three sizes are
the serialized payload byte sizes. -/
def mainLoad (m : Manifest) (verses commentaries topics references explanations : List Obj)
    (nowIso : String) (verseSize commentarySize topicsSize : Int) :
    Except String DB := do
  let (nasb, enC, enT) ← lookupManifestEntries m
  let db := create_schema
  let db ← insert_verses db "NASB1995" verses
  let db ← insert_commentaries db "en-US" commentaries
  let db ← insert_topics db topics references explanations
  let nasbU ← getReq nasb "updated_at"
  let enCU ← getReq enC "updated_at"
  let enTU ← getReq enT "updated_at"
  pure (writeMetadata db
    [⟨Value.str "bible:NASB1995", nasbU, Value.str nowIso, Value.int verseSize⟩,
     ⟨Value.str "commentary:en-US", enCU, Value.str nowIso, Value.int commentarySize⟩,
     ⟨Value.str "topics:en", enTU, Value.str nowIso, Value.int topicsSize⟩])

/-- The key of a required field is bound to a non-null value. -/
def presentNonNull (e : Obj) (k : String) : Bool :=
  match lookupField e k with
  | some v => !(v == Value.null)
  | none => false

/-! Helper lemmas about the chunking and the batch loader. -/

theorem chunksOf_nil {α : Type} (n : Nat) : chunksOf n ([] : List α) = [] := by
  rw [chunksOf]

theorem chunksOf_cons {α : Type} {n : Nat} (hn : n ≠ 0) (x : α) (xs : List α) :
    chunksOf n (x :: xs) = (x :: xs).take n :: chunksOf n ((x :: xs).drop n) := by
  rw [chunksOf]
  simp [hn]

theorem chunksOf_flatten {α : Type} {n : Nat} (hn : 0 < n) (l : List α) :
    (chunksOf n l).flatten = l := by
  generalize hk : l.length = k
  induction k using Nat.strong_induction_on generalizing l with
  | _ k ih =>
    match l with
    | [] => simp [chunksOf_nil]
    | x :: xs =>
      rw [chunksOf_cons (Nat.pos_iff_ne_zero.mp hn)]
      rw [List.flatten_cons]
      rw [ih (((x :: xs).drop n).length) (by subst hk; simp; omega) _ rfl]
      exact List.take_append_drop n (x :: xs)

theorem chunksOf_length_le {α : Type} {n : Nat} (hn : 0 < n) (l : List α) :
    ∀ c ∈ chunksOf n l, c.length ≤ n := by
  generalize hk : l.length = k
  induction k using Nat.strong_induction_on generalizing l with
  | _ k ih =>
    match l with
    | [] => simp [chunksOf_nil]
    | x :: xs =>
      rw [chunksOf_cons (Nat.pos_iff_ne_zero.mp hn)]
      intro c hc
      rcases List.mem_cons.mp hc with h | h
      · subst h
        simp [List.length_take]
      · exact ih (((x :: xs).drop n).length) (by subst hk; simp; omega) _ rfl c h

theorem foldl_chunkstep_eq_flatten {σ ρ : Type} (ins : σ → ρ → σ) (db : σ)
    (L : List (List ρ)) :
    L.foldl (fun s c => c.foldl ins s) db = L.flatten.foldl ins db := by
  induction L generalizing db with
  | nil => rfl
  | cons c L ih => simp [List.foldl_append, ih]

theorem insert_in_batches_eq_foldl {σ ρ : Type} (ins : σ → ρ → σ) (db : σ)
    (rows : List ρ) {n : Nat} (hn : 0 < n) :
    insert_in_batches ins db rows n = rows.foldl ins db := by
  rw [insert_in_batches, foldl_chunkstep_eq_flatten, chunksOf_flatten hn]

theorem dedupKeepFirst_nil {ρ κ : Type} [DecidableEq κ] (key : ρ → κ) :
    dedupKeepFirst key ([] : List ρ) = [] := by
  rw [dedupKeepFirst]

theorem dedupKeepFirst_cons {ρ κ : Type} [DecidableEq κ] (key : ρ → κ)
    (r : ρ) (rs : List ρ) :
    dedupKeepFirst key (r :: rs)
      = r :: dedupKeepFirst key (rs.filter (fun x => key x ≠ key r)) := by
  rw [dedupKeepFirst]

theorem foldl_insertOrIgnore_eq {ρ κ : Type} [DecidableEq κ] (key : ρ → κ)
    (rows : List ρ) (acc : List ρ) :
    rows.foldl (insertOrIgnore key) acc
      = acc ++ dedupKeepFirst key (rows.filter (fun r => key r ∉ acc.map key)) := by
  induction rows generalizing acc with
  | nil => simp [dedupKeepFirst]
  | cons r rs ih =>
    by_cases hmem : key r ∈ acc.map key
    · rw [List.foldl_cons]
      have hins : insertOrIgnore key acc r = acc := by simp [insertOrIgnore, hmem]
      rw [hins, ih, List.filter_cons]
      simp [hmem]
    · rw [List.foldl_cons]
      have hins : insertOrIgnore key acc r = acc ++ [r] := by simp [insertOrIgnore, hmem]
      rw [hins, ih, List.filter_cons, if_pos (by simp [hmem])]
      rw [dedupKeepFirst_cons, List.append_assoc, List.singleton_append]
      congr 2
      rw [List.filter_filter]
      congr 1
      apply List.filter_congr
      intro x _
      simp [List.map_append, List.mem_append, List.mem_singleton, or_comm]

theorem foldl_insertOrIgnore_nil_eq_dedup {ρ κ : Type} [DecidableEq κ] (key : ρ → κ)
    (rows : List ρ) :
    rows.foldl (insertOrIgnore key) [] = dedupKeepFirst key rows := by
  rw [foldl_insertOrIgnore_eq]
  simp

theorem foldl_insertOrIgnore_extends {ρ κ : Type} [DecidableEq κ] (key : ρ → κ)
    (t : List ρ) (rows : List ρ) :
    ∃ ext, rows.foldl (insertOrIgnore key) t = t ++ ext :=
  ⟨_, foldl_insertOrIgnore_eq key rows t⟩

theorem find?_filter_of_imp {α : Type} (p q : α → Bool) (l : List α)
    (hpq : ∀ x, p x = true → q x = true) :
    (l.filter q).find? p = l.find? p := by
  induction l with
  | nil => rfl
  | cons a l ih =>
    by_cases hq : q a = true
    · rw [List.filter_cons, if_pos hq]
      by_cases hp : p a = true
      · rw [List.find?_cons_of_pos _ hp, List.find?_cons_of_pos _ hp]
      · rw [List.find?_cons_of_neg _ (by simp [hp]),
          List.find?_cons_of_neg _ (by simp [hp]), ih]
    · have hp : ¬ p a = true := fun hpa => hq (hpq a hpa)
      rw [List.filter_cons, if_neg hq, ih, List.find?_cons_of_neg _ (by simp [hp])]

theorem dedupKeepFirst_find? {ρ κ : Type} [DecidableEq κ] (key : ρ → κ) (k : κ)
    (rows : List ρ) :
    (dedupKeepFirst key rows).find? (fun x => key x = k)
      = rows.find? (fun x => key x = k) := by
  generalize hl : rows.length = m
  induction m using Nat.strong_induction_on generalizing rows with
  | _ m ih =>
    match rows with
    | [] => rw [dedupKeepFirst_nil]
    | r :: rs =>
      rw [dedupKeepFirst_cons]
      by_cases hk : key r = k
      · rw [List.find?_cons_of_pos _ (by simp [hk]),
          List.find?_cons_of_pos _ (by simp [hk])]
      · rw [List.find?_cons_of_neg _ (by simp [hk]),
          List.find?_cons_of_neg _ (by simp [hk])]
        rw [ih ((rs.filter (fun x => key x ≠ key r)).length)
          (by subst hl; exact Nat.lt_succ_of_le (List.length_filter_le _ _)) _ rfl]
        apply find?_filter_of_imp
        intro x hx
        have hxk : key x = k := by simpa using hx
        simp [hxk, hk, Ne.symm]

theorem scanl_mem_take_foldl {σ α : Type} (f : σ → α → σ) (b : σ) (L : List α) :
    ∀ s ∈ L.scanl f b, ∃ m, s = (L.take m).foldl f b := by
  induction L generalizing b with
  | nil =>
    intro s hs
    rw [List.scanl_nil] at hs
    exact ⟨0, by simp [List.mem_singleton.mp hs]⟩
  | cons a L ih =>
    intro s hs
    rw [List.scanl_cons] at hs
    rcases List.mem_append.mp hs with h | h
    · exact ⟨0, by simp [List.mem_singleton.mp h]⟩
    · rcases ih (f b a) s h with ⟨m, hm⟩
      exact ⟨m + 1, by simpa using hm⟩

theorem scanl_getLast? {σ α : Type} (f : σ → α → σ) (b : σ) (L : List α) :
    (L.scanl f b).getLast? = some (L.foldl f b) := by
  induction L generalizing b with
  | nil => rfl
  | cons a L ih =>
    rw [List.scanl_cons, List.foldl_cons, List.singleton_append]
    cases hL : L.scanl f (f b a) with
    | nil => exact absurd hL (by simp [← List.length_eq_zero, List.length_scanl])
    | cons c t =>
      rw [List.getLast?_cons_cons, ← hL, ih]

theorem take_flatten_foldl_extends {ρ κ : Type} [DecidableEq κ] (key : ρ → κ)
    (db : List ρ) (L : List (List ρ)) {j m : Nat} (hjm : j ≤ m) :
    ∃ ext, ((L.take m).flatten).foldl (insertOrIgnore key) db
         = ((L.take j).flatten).foldl (insertOrIgnore key) db ++ ext := by
  have hsplit : L.take m = L.take j ++ (L.take m).drop j := by
    conv_lhs => rw [← List.take_append_drop j (L.take m)]
    rw [List.take_take, Nat.min_eq_left hjm]
  rw [hsplit, List.flatten_append, List.foldl_append]
  exact foldl_insertOrIgnore_extends key _ _

/-! Inversion and frame lemmas for the loaders. -/

theorem insert_verses_ok_iff {db : DB} {vk : String} {verses : List Obj} {db' : DB} :
    insert_verses db vk verses = .ok db'
      ↔ ∃ rows, verses.mapM (mapVerse vk) = Except.ok rows ∧
          db' = { db with
            offline_verses :=
              insert_in_batches (insertOrIgnore verseKey) db.offline_verses rows
                BATCH_SIZE } := by
  unfold insert_verses
  cases hm : verses.mapM (mapVerse vk) with
  | error e => simp [hm, Bind.bind, Except.bind]
  | ok rows => simp [hm, Bind.bind, Except.bind, pure, Except.pure, eq_comm]

theorem insert_commentaries_ok_iff {db : DB} {lc : String} {entries : List Obj}
    {db' : DB} :
    insert_commentaries db lc entries = .ok db'
      ↔ ∃ rows, entries.mapM (mapCommentary lc) = Except.ok rows ∧
          db' = { db with
            offline_explanations :=
              insert_in_batches (insertOrIgnore explKey) db.offline_explanations rows
                BATCH_SIZE } := by
  unfold insert_commentaries
  cases hm : entries.mapM (mapCommentary lc) with
  | error e => simp [hm, Bind.bind, Except.bind]
  | ok rows => simp [hm, Bind.bind, Except.bind, pure, Except.pure, eq_comm]

theorem insert_topics_ok_iff {db : DB} {topics references explanations : List Obj}
    {db' : DB} :
    insert_topics db topics references explanations = .ok db'
      ↔ ∃ topicRows refRows expRows,
          topics.mapM mapTopic = Except.ok topicRows ∧
          references.mapM mapTopicRef = Except.ok refRows ∧
          explanations.mapM mapTopicExpl = Except.ok expRows ∧
          db' =
            (let db1 : DB := { db with
              offline_topics :=
                insert_in_batches (insertOrIgnore topicKey) db.offline_topics topicRows
                  BATCH_SIZE }
            let db2 : DB :=
              if refRows.isEmpty then db1
              else { db1 with
                offline_topic_references :=
                  insert_in_batches (insertOrIgnore topicRefKey)
                    db1.offline_topic_references refRows BATCH_SIZE }
            if expRows.isEmpty then db2
            else { db2 with
              offline_topic_explanations :=
                insert_in_batches (insertOrIgnore topicExplKey)
                  db2.offline_topic_explanations expRows BATCH_SIZE }) := by
  unfold insert_topics
  cases ht : topics.mapM mapTopic with
  | error e => simp [ht, Bind.bind, Except.bind]
  | ok topicRows =>
    cases hr : references.mapM mapTopicRef with
    | error e => simp [ht, hr, Bind.bind, Except.bind]
    | ok refRows =>
      cases he : explanations.mapM mapTopicExpl with
      | error e => simp [ht, hr, he, Bind.bind, Except.bind]
      | ok expRows =>
        simp only [ht, hr, he, Bind.bind, Except.bind, pure, Except.pure]
        constructor
        · intro h
          injection h with h'
          exact ⟨topicRows, refRows, expRows, rfl, rfl, rfl, h'.symm⟩
        · rintro ⟨tr, rr, er, htr, hrr, her, hdb⟩
          injection htr with htr'
          injection hrr with hrr'
          injection her with her'
          subst htr'
          subst hrr'
          subst her'
          subst hdb
          rfl

theorem insert_verses_frame {db db' : DB} {vk : String} {verses : List Obj}
    (h : insert_verses db vk verses = .ok db') :
    db'.offline_explanations = db.offline_explanations ∧
    db'.offline_topics = db.offline_topics ∧
    db'.offline_topic_references = db.offline_topic_references ∧
    db'.offline_topic_explanations = db.offline_topic_explanations ∧
    db'.offline_notes = db.offline_notes ∧
    db'.offline_highlights = db.offline_highlights ∧
    db'.offline_bookmarks = db.offline_bookmarks ∧
    db'.offline_metadata = db.offline_metadata := by
  rcases insert_verses_ok_iff.mp h with ⟨rows, _, hdb⟩
  subst hdb
  simp

theorem insert_commentaries_frame {db db' : DB} {lc : String} {entries : List Obj}
    (h : insert_commentaries db lc entries = .ok db') :
    db'.offline_verses = db.offline_verses ∧
    db'.offline_topics = db.offline_topics ∧
    db'.offline_topic_references = db.offline_topic_references ∧
    db'.offline_topic_explanations = db.offline_topic_explanations ∧
    db'.offline_notes = db.offline_notes ∧
    db'.offline_highlights = db.offline_highlights ∧
    db'.offline_bookmarks = db.offline_bookmarks ∧
    db'.offline_metadata = db.offline_metadata := by
  rcases insert_commentaries_ok_iff.mp h with ⟨rows, _, hdb⟩
  subst hdb
  simp

theorem insert_topics_frame {db db' : DB} {topics references explanations : List Obj}
    (h : insert_topics db topics references explanations = .ok db') :
    db'.offline_verses = db.offline_verses ∧
    db'.offline_explanations = db.offline_explanations ∧
    db'.offline_notes = db.offline_notes ∧
    db'.offline_highlights = db.offline_highlights ∧
    db'.offline_bookmarks = db.offline_bookmarks ∧
    db'.offline_metadata = db.offline_metadata := by
  rcases insert_topics_ok_iff.mp h with ⟨topicRows, refRows, expRows, _, _, _, hdb⟩
  subst hdb
  by_cases hre : refRows.isEmpty <;> by_cases hee : expRows.isEmpty <;> simp [hre, hee]

theorem writeMetadata_frame (db : DB) (rows : List MetaRow) :
    (writeMetadata db rows).offline_verses = db.offline_verses ∧
    (writeMetadata db rows).offline_explanations = db.offline_explanations ∧
    (writeMetadata db rows).offline_topics = db.offline_topics ∧
    (writeMetadata db rows).offline_topic_references = db.offline_topic_references ∧
    (writeMetadata db rows).offline_topic_explanations = db.offline_topic_explanations ∧
    (writeMetadata db rows).offline_notes = db.offline_notes ∧
    (writeMetadata db rows).offline_highlights = db.offline_highlights ∧
    (writeMetadata db rows).offline_bookmarks = db.offline_bookmarks := by
  simp [writeMetadata]

/-! Helper lemmas about the record mappers and the manifest scan. -/

theorem presentNonNull_iff {e : Obj} {k : String} :
    presentNonNull e k = true ↔ ∃ v, lookupField e k = some v ∧ v ≠ Value.null := by
  unfold presentNonNull
  cases h : lookupField e k <;> simp

theorem mapCommentary_ok {lc : String} {e : Obj} {v1 v2 v3 v4 v5 : Value}
    (h1 : lookupField e "explanation_id" = some v1)
    (h2 : lookupField e "book_id" = some v2)
    (h3 : lookupField e "chapter_number" = some v3)
    (h4 : lookupField e "type" = some v4)
    (h5 : lookupField e "explanation" = some v5) :
    mapCommentary lc e
      = .ok ⟨Value.str lc, v1, v2, v3, getOpt e "verse_start", getOpt e "verse_end",
             v4, v5⟩ := by
  unfold mapCommentary getReq
  rw [h1, h2, h3, h4, h5]
  rfl

theorem mapCommentary_ok_required {lc : String} {e : Obj} {r : ExplRow}
    (h : mapCommentary lc e = .ok r) :
    (lookupField e "explanation_id").isSome ∧ (lookupField e "book_id").isSome ∧
    (lookupField e "chapter_number").isSome ∧ (lookupField e "type").isSome ∧
    (lookupField e "explanation").isSome := by
  unfold mapCommentary getReq at h
  cases k1 : lookupField e "explanation_id" <;> rw [k1] at h
  · exact absurd h (by simp [Bind.bind, Except.bind])
  cases k2 : lookupField e "book_id" <;> rw [k2] at h
  · exact absurd h (by simp [Bind.bind, Except.bind])
  cases k3 : lookupField e "chapter_number" <;> rw [k3] at h
  · exact absurd h (by simp [Bind.bind, Except.bind])
  cases k4 : lookupField e "type" <;> rw [k4] at h
  · exact absurd h (by simp [Bind.bind, Except.bind])
  cases k5 : lookupField e "explanation" <;> rw [k5] at h
  · exact absurd h (by simp [Bind.bind, Except.bind])
  simp

theorem mapTopic_ok {t : Obj} {v1 v2 v3 v4 : Value}
    (h1 : lookupField t "language_code" = some v1)
    (h2 : lookupField t "topic_id" = some v2)
    (h3 : lookupField t "name" = some v3)
    (h4 : lookupField t "content" = some v4) :
    mapTopic t
      = .ok ⟨v1, v2, v3, v4, getOptD t "category" (Value.str ""),
             getOpt t "sort_order"⟩ := by
  unfold mapTopic getReq
  rw [h1, h2, h3, h4]
  rfl

theorem mapTopic_ok_required {t : Obj} {r : TopicRow}
    (h : mapTopic t = .ok r) :
    (lookupField t "language_code").isSome ∧ (lookupField t "topic_id").isSome ∧
    (lookupField t "name").isSome ∧ (lookupField t "content").isSome := by
  unfold mapTopic getReq at h
  cases k1 : lookupField t "language_code" <;> rw [k1] at h
  · exact absurd h (by simp [Bind.bind, Except.bind])
  cases k2 : lookupField t "topic_id" <;> rw [k2] at h
  · exact absurd h (by simp [Bind.bind, Except.bind])
  cases k3 : lookupField t "name" <;> rw [k3] at h
  · exact absurd h (by simp [Bind.bind, Except.bind])
  cases k4 : lookupField t "content" <;> rw [k4] at h
  · exact absurd h (by simp [Bind.bind, Except.bind])
  simp

theorem findByField_eq_find? {field val : String} (objs : List Obj)
    (hf : ∀ o ∈ objs, (lookupField o field).isSome) :
    findByField field val objs
      = match objs.find? (fun o => lookupField o field == some (Value.str val)) with
        | some o => .ok o
        | none => .error "StopIteration" := by
  induction objs with
  | nil => rfl
  | cons o rest ih =>
    obtain ⟨v, hv⟩ := Option.isSome_iff_exists.mp (hf o (List.mem_cons_self o rest))
    simp only [findByField]
    rw [hv]
    dsimp only
    by_cases hveq : v = Value.str val
    · subst hveq
      rw [if_pos rfl, List.find?_cons_of_pos _ (by simp [hv])]
    · rw [if_neg hveq, List.find?_cons_of_neg _ (by simp [hv, hveq]),
        ih (fun o' ho' => hf o' (List.mem_cons_of_mem _ ho'))]

theorem findByField_error_of_not_mem {field val : String} (objs : List Obj)
    (habs : ∀ o ∈ objs, lookupField o field ≠ some (Value.str val)) :
    ∃ msg, findByField field val objs = .error msg := by
  induction objs with
  | nil => exact ⟨"StopIteration", rfl⟩
  | cons o rest ih =>
    simp only [findByField]
    cases hv : lookupField o field with
    | none => exact ⟨_, rfl⟩
    | some v =>
      dsimp only
      rw [if_neg (fun hveq => habs o (List.mem_cons_self o rest) (by rw [hv, hveq]))]
      exact ih (fun o' ho' => habs o' (List.mem_cons_of_mem _ ho'))

theorem insert_in_batches_batchsize {σ ρ : Type} (ins : σ → ρ → σ) (db : σ)
    (rows : List ρ) :
    insert_in_batches ins db rows BATCH_SIZE = rows.foldl ins db :=
  insert_in_batches_eq_foldl ins db rows (by decide)

theorem countP_insertOrIgnore_twice {ρ κ : Type} [DecidableEq κ] (key : ρ → κ)
    (t : List ρ) (r : ρ)
    (hcount : t.countP (fun x => key x = key r) ≤ 1) :
    (insertOrIgnore key (insertOrIgnore key t r) r).countP (fun x => key x = key r) = 1
  ∧ insertOrIgnore key (insertOrIgnore key t r) r = insertOrIgnore key t r
  ∧ ∃ ext, insertOrIgnore key t r = t ++ ext := by
  by_cases hmem : key r ∈ t.map key
  · have hins : insertOrIgnore key t r = t := by simp [insertOrIgnore, hmem]
    have hpos : 0 < t.countP (fun x => key x = key r) := by
      rcases List.mem_map.mp hmem with ⟨x, hx, hkx⟩
      exact List.countP_pos_iff.mpr ⟨x, hx, by simp [hkx]⟩
    rw [hins, hins]
    exact ⟨Nat.le_antisymm hcount hpos, rfl, ⟨[], by simp⟩⟩
  · have hins : insertOrIgnore key t r = t ++ [r] := by simp [insertOrIgnore, hmem]
    have hzero : t.countP (fun x => key x = key r) = 0 := by
      apply List.countP_eq_zero.mpr
      intro x hx
      simp only [beq_iff_eq, decide_eq_true_eq]
      exact fun hkx => hmem (List.mem_map.mpr ⟨x, hx, hkx⟩)
    have hmem2 : key r ∈ (t ++ [r]).map key := by simp
    have hins2 : insertOrIgnore key (t ++ [r]) r = t ++ [r] := by
      simp [insertOrIgnore, hmem2]
    rw [hins, hins2]
    refine ⟨?_, rfl, ⟨[r], rfl⟩⟩
    rw [List.countP_append, hzero]
    simp

/-! The claims. -/

/-- C1: for every input row sequence and every positive chunk size, the batch
loader partitions the sequence into contiguous chunks of at most `chunkSize`
rows (their concatenation is the input), executes the per-row insert with
ignore-on-uniqueness-violation semantics chunk by chunk so that the result
equals the plain left-to-right fold over all rows (hence is independent of the
chunk size), and on an empty table the union of all committed chunks is
exactly the deduplicated input (first occurrence per unique key). -/
theorem c1_batch_loader_correct {ρ κ : Type} [DecidableEq κ] (key : ρ → κ)
    (rows : List ρ) (n : Nat) (hn : 0 < n) :
    (chunksOf n rows).flatten = rows
  ∧ (∀ c ∈ chunksOf n rows, c.length ≤ n)
  ∧ (∀ db : List ρ, insert_in_batches (insertOrIgnore key) db rows n
      = rows.foldl (insertOrIgnore key) db)
  ∧ insert_in_batches (insertOrIgnore key) [] rows n = dedupKeepFirst key rows := by
  refine ⟨chunksOf_flatten hn rows, chunksOf_length_le hn rows,
    fun db => insert_in_batches_eq_foldl _ db rows hn, ?_⟩
  rw [insert_in_batches_eq_foldl _ _ rows hn, foldl_insertOrIgnore_nil_eq_dedup]

/-- Witness for C1 at a concrete sequence with a duplicate key and chunk
size 2. -/
theorem c1_batch_loader_correct_witness :
    0 < 2
  ∧ (chunksOf 2 [(1 : Nat), 2, 1, 3]).flatten = [1, 2, 1, 3]
  ∧ insert_in_batches (insertOrIgnore (fun x : Nat => x)) [] [1, 2, 1, 3] 2
      = dedupKeepFirst (fun x : Nat => x) [1, 2, 1, 3] :=
  ⟨by decide,
   (c1_batch_loader_correct (fun x : Nat => x) [1, 2, 1, 3] 2 (by decide)).1,
   (c1_batch_loader_correct (fun x : Nat => x) [1, 2, 1, 3] 2 (by decide)).2.2.2⟩

/-- C2: for each of the five content tables with a unique-key constraint,
inserting the same row twice leaves exactly one stored row for its key (when
the table held at most one row for that key, as every reachable table does),
the second insert is a no-op, and an insert never updates or deletes existing
rows (the prior table content is a prefix of the new content). -/
theorem c2_idempotent_inserts :
    (∀ (t : List VerseRow) (r : VerseRow),
      t.countP (fun x => verseKey x = verseKey r) ≤ 1 →
      (insertOrIgnore verseKey (insertOrIgnore verseKey t r) r).countP
          (fun x => verseKey x = verseKey r) = 1
      ∧ insertOrIgnore verseKey (insertOrIgnore verseKey t r) r
          = insertOrIgnore verseKey t r
      ∧ ∃ ext, insertOrIgnore verseKey t r = t ++ ext)
  ∧ (∀ (t : List ExplRow) (r : ExplRow),
      t.countP (fun x => explKey x = explKey r) ≤ 1 →
      (insertOrIgnore explKey (insertOrIgnore explKey t r) r).countP
          (fun x => explKey x = explKey r) = 1
      ∧ insertOrIgnore explKey (insertOrIgnore explKey t r) r
          = insertOrIgnore explKey t r
      ∧ ∃ ext, insertOrIgnore explKey t r = t ++ ext)
  ∧ (∀ (t : List TopicRow) (r : TopicRow),
      t.countP (fun x => topicKey x = topicKey r) ≤ 1 →
      (insertOrIgnore topicKey (insertOrIgnore topicKey t r) r).countP
          (fun x => topicKey x = topicKey r) = 1
      ∧ insertOrIgnore topicKey (insertOrIgnore topicKey t r) r
          = insertOrIgnore topicKey t r
      ∧ ∃ ext, insertOrIgnore topicKey t r = t ++ ext)
  ∧ (∀ (t : List TopicRefRow) (r : TopicRefRow),
      t.countP (fun x => topicRefKey x = topicRefKey r) ≤ 1 →
      (insertOrIgnore topicRefKey (insertOrIgnore topicRefKey t r) r).countP
          (fun x => topicRefKey x = topicRefKey r) = 1
      ∧ insertOrIgnore topicRefKey (insertOrIgnore topicRefKey t r) r
          = insertOrIgnore topicRefKey t r
      ∧ ∃ ext, insertOrIgnore topicRefKey t r = t ++ ext)
  ∧ (∀ (t : List TopicExplRow) (r : TopicExplRow),
      t.countP (fun x => topicExplKey x = topicExplKey r) ≤ 1 →
      (insertOrIgnore topicExplKey (insertOrIgnore topicExplKey t r) r).countP
          (fun x => topicExplKey x = topicExplKey r) = 1
      ∧ insertOrIgnore topicExplKey (insertOrIgnore topicExplKey t r) r
          = insertOrIgnore topicExplKey t r
      ∧ ∃ ext, insertOrIgnore topicExplKey t r = t ++ ext) :=
  ⟨fun t r h => countP_insertOrIgnore_twice verseKey t r h,
   fun t r h => countP_insertOrIgnore_twice explKey t r h,
   fun t r h => countP_insertOrIgnore_twice topicKey t r h,
   fun t r h => countP_insertOrIgnore_twice topicRefKey t r h,
   fun t r h => countP_insertOrIgnore_twice topicExplKey t r h⟩

/-- Witness for C2: inserting one concrete verse row twice into the empty
verses table leaves exactly one row. -/
theorem c2_idempotent_inserts_witness :
    ([] : List VerseRow).countP
        (fun x => verseKey x
          == verseKey ⟨Value.str "NASB1995", Value.int 1, Value.int 1, Value.int 1,
               Value.str "In the beginning"⟩) ≤ 1
  ∧ (insertOrIgnore verseKey
        (insertOrIgnore verseKey []
          ⟨Value.str "NASB1995", Value.int 1, Value.int 1, Value.int 1,
           Value.str "In the beginning"⟩)
        ⟨Value.str "NASB1995", Value.int 1, Value.int 1, Value.int 1,
         Value.str "In the beginning"⟩).countP
      (fun x => verseKey x
        == verseKey ⟨Value.str "NASB1995", Value.int 1, Value.int 1, Value.int 1,
             Value.str "In the beginning"⟩) = 1 :=
  ⟨by decide,
   (c2_idempotent_inserts.1 []
      ⟨Value.str "NASB1995", Value.int 1, Value.int 1, Value.int 1,
       Value.str "In the beginning"⟩ (by decide)).1⟩

/-- C3: during a batched load, every committed database state is the fold of a
whole number of leading chunks (never a partially applied chunk), the last
committed state is the full load's result, and later committed states only
append to earlier ones, so chunks committed before a failure remain stored. -/
theorem c3_commit_durability {ρ κ : Type} [DecidableEq κ] (key : ρ → κ)
    (db : List ρ) (rows : List ρ) (n : Nat) (hn : 0 < n) :
    (∀ s ∈ commitStates (insertOrIgnore key) db rows n,
      ∃ k, s = (((chunksOf n rows).take k).flatten).foldl (insertOrIgnore key) db)
  ∧ (commitStates (insertOrIgnore key) db rows n).getLast?
      = some (insert_in_batches (insertOrIgnore key) db rows n)
  ∧ (∀ j k, j ≤ k →
      ∃ ext, (((chunksOf n rows).take k).flatten).foldl (insertOrIgnore key) db
        = (((chunksOf n rows).take j).flatten).foldl (insertOrIgnore key) db ++ ext) := by
  refine ⟨?_, ?_, ?_⟩
  · intro s hs
    obtain ⟨m, hm⟩ := scanl_mem_take_foldl _ db (chunksOf n rows) s hs
    exact ⟨m, by rw [hm, foldl_chunkstep_eq_flatten]⟩
  · exact scanl_getLast? _ db (chunksOf n rows)
  · intro j k hjk
    exact take_flatten_foldl_extends key db (chunksOf n rows) hjk

/-- Witness for C3 at a concrete load of four rows in chunks of two. -/
theorem c3_commit_durability_witness :
    0 < 2
  ∧ (commitStates (insertOrIgnore (fun x : Nat => x)) [] [1, 2, 1, 3] 2).getLast?
      = some (insert_in_batches (insertOrIgnore (fun x : Nat => x)) [] [1, 2, 1, 3] 2) :=
  ⟨by decide,
   (c3_commit_durability (fun x : Nat => x) [] [1, 2, 1, 3] 2 (by decide)).2.1⟩

/-- C9: when two row-tuples in one batched load share a unique key, the stored
row for that key is the first occurrence in the sequence: for every key, the
stored row (if any) equals the first input row with that key, so later
duplicates are dropped and never overwrite stored values. -/
theorem c9_first_occurrence_wins (rows : List VerseRow)
    (k : Value × Value × Value × Value) {n : Nat} (hn : 0 < n) :
    (insert_in_batches (insertOrIgnore verseKey) [] rows n).find?
        (fun x => verseKey x = k)
      = rows.find? (fun x => verseKey x = k) := by
  rw [insert_in_batches_eq_foldl _ _ rows hn, foldl_insertOrIgnore_nil_eq_dedup,
    dedupKeepFirst_find?]

/-- Witness for C9: two rows with the same unique key and different text; the
stored row keeps the first text. -/
theorem c9_first_occurrence_wins_witness :
    (insert_in_batches (insertOrIgnore verseKey) []
        [⟨Value.str "NASB1995", Value.int 1, Value.int 1, Value.int 1, Value.str "first"⟩,
         ⟨Value.str "NASB1995", Value.int 1, Value.int 1, Value.int 1, Value.str "second"⟩]
        2).find?
      (fun x => verseKey x = (Value.str "NASB1995", Value.int 1, Value.int 1, Value.int 1))
    = some ⟨Value.str "NASB1995", Value.int 1, Value.int 1, Value.int 1,
        Value.str "first"⟩ :=
  (c9_first_occurrence_wins
    [⟨Value.str "NASB1995", Value.int 1, Value.int 1, Value.int 1, Value.str "first"⟩,
     ⟨Value.str "NASB1995", Value.int 1, Value.int 1, Value.int 1, Value.str "second"⟩]
    (Value.str "NASB1995", Value.int 1, Value.int 1, Value.int 1) (by decide)).trans
    (by decide)

/-- C4: the record mappers map every required field of a well-formed API
object (present, non-null) to a non-null value in the corresponding tuple
position; an absent optional field among `verse_start`, `verse_end`,
`sort_order` maps to null; an absent `category` maps to the empty string; and
an object missing a required field makes the mapper fail, aborting the run. -/
theorem c4_record_mappers :
    (∀ (lc : String) (e : Obj),
      presentNonNull e "explanation_id" = true →
      presentNonNull e "book_id" = true →
      presentNonNull e "chapter_number" = true →
      presentNonNull e "type" = true →
      presentNonNull e "explanation" = true →
      ∃ r, mapCommentary lc e = .ok r
        ∧ r.language_code = Value.str lc
        ∧ r.explanation_id ≠ Value.null ∧ r.book_id ≠ Value.null
        ∧ r.chapter_number ≠ Value.null ∧ r.type ≠ Value.null
        ∧ r.explanation ≠ Value.null
        ∧ (lookupField e "verse_start" = none → r.verse_start = Value.null)
        ∧ (lookupField e "verse_end" = none → r.verse_end = Value.null))
  ∧ (∀ t : Obj,
      presentNonNull t "language_code" = true →
      presentNonNull t "topic_id" = true →
      presentNonNull t "name" = true →
      presentNonNull t "content" = true →
      ∃ r, mapTopic t = .ok r
        ∧ r.language_code ≠ Value.null ∧ r.topic_id ≠ Value.null
        ∧ r.name ≠ Value.null ∧ r.content ≠ Value.null
        ∧ (lookupField t "sort_order" = none → r.sort_order = Value.null)
        ∧ (lookupField t "category" = none → r.category = Value.str ""))
  ∧ (∀ (lc : String) (e : Obj),
      (lookupField e "explanation_id" = none ∨ lookupField e "book_id" = none
        ∨ lookupField e "chapter_number" = none ∨ lookupField e "type" = none
        ∨ lookupField e "explanation" = none) →
      ∃ msg, mapCommentary lc e = .error msg)
  ∧ (∀ t : Obj,
      (lookupField t "language_code" = none ∨ lookupField t "topic_id" = none
        ∨ lookupField t "name" = none ∨ lookupField t "content" = none) →
      ∃ msg, mapTopic t = .error msg) := by
  refine ⟨?_, ?_, ?_, ?_⟩
  · intro lc e p1 p2 p3 p4 p5
    obtain ⟨v1, h1, n1⟩ := presentNonNull_iff.mp p1
    obtain ⟨v2, h2, n2⟩ := presentNonNull_iff.mp p2
    obtain ⟨v3, h3, n3⟩ := presentNonNull_iff.mp p3
    obtain ⟨v4, h4, n4⟩ := presentNonNull_iff.mp p4
    obtain ⟨v5, h5, n5⟩ := presentNonNull_iff.mp p5
    refine ⟨_, mapCommentary_ok h1 h2 h3 h4 h5, rfl, n1, n2, n3, n4, n5, ?_, ?_⟩
    · intro habs
      simp [getOpt, habs]
    · intro habs
      simp [getOpt, habs]
  · intro t p1 p2 p3 p4
    obtain ⟨v1, h1, n1⟩ := presentNonNull_iff.mp p1
    obtain ⟨v2, h2, n2⟩ := presentNonNull_iff.mp p2
    obtain ⟨v3, h3, n3⟩ := presentNonNull_iff.mp p3
    obtain ⟨v4, h4, n4⟩ := presentNonNull_iff.mp p4
    refine ⟨_, mapTopic_ok h1 h2 h3 h4, n1, n2, n3, n4, ?_, ?_⟩
    · intro habs
      simp [getOpt, habs]
    · intro habs
      simp [getOptD, habs]
  · intro lc e hmiss
    cases hres : mapCommentary lc e with
    | error msg => exact ⟨msg, rfl⟩
    | ok r =>
      obtain ⟨q1, q2, q3, q4, q5⟩ := mapCommentary_ok_required hres
      rcases hmiss with h | h | h | h | h <;> simp [h] at q1 q2 q3 q4 q5
  · intro t hmiss
    cases hres : mapTopic t with
    | error msg => exact ⟨msg, rfl⟩
    | ok r =>
      obtain ⟨q1, q2, q3, q4⟩ := mapTopic_ok_required hres
      rcases hmiss with h | h | h | h <;> simp [h] at q1 q2 q3 q4

/-- Witness for C4: a well-formed commentary object with `verse_end` absent
maps to a tuple whose `verse_end` position is null, and a well-formed topic
object with `category` absent maps to an empty-string category. -/
theorem c4_record_mappers_witness :
    (mapCommentary "en-US"
        [("explanation_id", Value.int 7), ("book_id", Value.int 1),
         ("chapter_number", Value.int 2), ("verse_start", Value.int 3),
         ("type", Value.str "summary"), ("explanation", Value.str "text")]).map
      ExplRow.verse_end = .ok Value.null
  ∧ (mapTopic
        [("language_code", Value.str "en"), ("topic_id", Value.str "t1"),
         ("name", Value.str "Hope"), ("content", Value.str "body")]).map
      TopicRow.category = .ok (Value.str "") := by
  constructor
  · obtain ⟨r, hr, -, -, -, -, -, -, -, hve⟩ :=
      c4_record_mappers.1 "en-US"
        [("explanation_id", Value.int 7), ("book_id", Value.int 1),
         ("chapter_number", Value.int 2), ("verse_start", Value.int 3),
         ("type", Value.str "summary"), ("explanation", Value.str "text")]
        (by decide) (by decide) (by decide) (by decide) (by decide)
    rw [hr]
    simp only [Except.map]
    rw [hve (by decide)]
  · obtain ⟨r, hr, -, -, -, -, -, hcat⟩ :=
      c4_record_mappers.2.1
        [("language_code", Value.str "en"), ("topic_id", Value.str "t1"),
         ("name", Value.str "Hope"), ("content", Value.str "body")]
        (by decide) (by decide) (by decide) (by decide)
    rw [hr]
    simp only [Except.map]
    rw [hcat (by decide)]

/-- C5: the orchestrator selects the NASB1995 entry of `bible_versions`, the
en-US entry of `commentary_languages` and the en entry of `topic_languages`
by scanning each list (on a manifest whose entries all carry the scanned
field, the selected entry is the first match), and if any of the three
entries is absent the lookup step fails with an error. -/
theorem c5_manifest_lookup (m : Manifest)
    (hfa : ∀ o ∈ m.bible_versions, (lookupField o "key").isSome)
    (hfb : ∀ o ∈ m.commentary_languages, (lookupField o "code").isSome)
    (hfc : ∀ o ∈ m.topic_languages, (lookupField o "code").isSome) :
    (∀ a b c : Obj,
      m.bible_versions.find?
          (fun o => lookupField o "key" == some (Value.str "NASB1995")) = some a →
      m.commentary_languages.find?
          (fun o => lookupField o "code" == some (Value.str "en-US")) = some b →
      m.topic_languages.find?
          (fun o => lookupField o "code" == some (Value.str "en")) = some c →
      lookupManifestEntries m = .ok (a, b, c))
  ∧ ((m.bible_versions.find?
          (fun o => lookupField o "key" == some (Value.str "NASB1995")) = none
      ∨ m.commentary_languages.find?
          (fun o => lookupField o "code" == some (Value.str "en-US")) = none
      ∨ m.topic_languages.find?
          (fun o => lookupField o "code" == some (Value.str "en")) = none) →
      ∃ msg, lookupManifestEntries m = .error msg) := by
  constructor
  · intro a b c ha hb hc
    unfold lookupManifestEntries
    rw [findByField_eq_find? _ hfa, findByField_eq_find? _ hfb,
      findByField_eq_find? _ hfc, ha, hb, hc]
    rfl
  · intro hmiss
    unfold lookupManifestEntries
    rw [findByField_eq_find? _ hfa, findByField_eq_find? _ hfb,
      findByField_eq_find? _ hfc]
    rcases hmiss with h | h | h
    · rw [h]
      exact ⟨"StopIteration", rfl⟩
    · cases ha : m.bible_versions.find?
          (fun o => lookupField o "key" == some (Value.str "NASB1995")) with
      | none => exact ⟨"StopIteration", rfl⟩
      | some a =>
        rw [h]
        exact ⟨"StopIteration", rfl⟩
    · cases ha : m.bible_versions.find?
          (fun o => lookupField o "key" == some (Value.str "NASB1995")) with
      | none => exact ⟨"StopIteration", rfl⟩
      | some a =>
        cases hb : m.commentary_languages.find?
            (fun o => lookupField o "code" == some (Value.str "en-US")) with
        | none => exact ⟨"StopIteration", rfl⟩
        | some b =>
          rw [h]
          exact ⟨"StopIteration", rfl⟩

/-- Witness for C5: a concrete manifest holding all three entries resolves
to them. -/
theorem c5_manifest_lookup_witness :
    lookupManifestEntries
      ⟨[[("key", Value.str "NASB1995"), ("updated_at", Value.str "2024-01-01")]],
       [[("code", Value.str "en-US"), ("updated_at", Value.str "2024-02-01")]],
       [[("code", Value.str "en"), ("updated_at", Value.str "2024-03-01")]]⟩
      = .ok ([("key", Value.str "NASB1995"), ("updated_at", Value.str "2024-01-01")],
             [("code", Value.str "en-US"), ("updated_at", Value.str "2024-02-01")],
             [("code", Value.str "en"), ("updated_at", Value.str "2024-03-01")]) :=
  (c5_manifest_lookup
    ⟨[[("key", Value.str "NASB1995"), ("updated_at", Value.str "2024-01-01")]],
     [[("code", Value.str "en-US"), ("updated_at", Value.str "2024-02-01")]],
     [[("code", Value.str "en"), ("updated_at", Value.str "2024-03-01")]]⟩
    (by decide) (by decide) (by decide)).1 _ _ _ (by decide) (by decide) (by decide)

/-- C6: writing a metadata row twice with the same resource key leaves
exactly one row in `offline_metadata` for that key, and that row carries the
second write's values. -/
theorem c6_metadata_overwrite (db : DB) (r1 r2 : MetaRow)
    (hkey : metaKey r1 = metaKey r2) :
    (writeMetadata (writeMetadata db [r1]) [r2]).offline_metadata.filter
        (fun x => metaKey x = metaKey r2) = [r2]
  ∧ (writeMetadata (writeMetadata db [r1]) [r2]).offline_metadata.countP
        (fun x => metaKey x = metaKey r2) = 1 := by
  have hfilter :
      (writeMetadata (writeMetadata db [r1]) [r2]).offline_metadata.filter
        (fun x => metaKey x = metaKey r2) = [r2] := by
    simp only [writeMetadata, List.foldl_cons, List.foldl_nil, insertOrReplace]
    rw [List.filter_append, List.filter_filter]
    rw [List.filter_eq_nil_iff.mpr (by intro a ha; simp)]
    simp
  refine ⟨hfilter, ?_⟩
  rw [List.countP_eq_length_filter, hfilter]
  rfl

/-- Witness for C6 at two concrete rows sharing the resource key. -/
theorem c6_metadata_overwrite_witness :
    List.filter
      (fun x => metaKey x
        = metaKey ⟨Value.str "bible:NASB1995", Value.str "new", Value.str "t2",
            Value.int 2⟩)
      (DB.offline_metadata
        (writeMetadata
          (writeMetadata create_schema
            [⟨Value.str "bible:NASB1995", Value.str "old", Value.str "t1", Value.int 1⟩])
          [⟨Value.str "bible:NASB1995", Value.str "new", Value.str "t2", Value.int 2⟩]))
      = [⟨Value.str "bible:NASB1995", Value.str "new", Value.str "t2", Value.int 2⟩] :=
  (c6_metadata_overwrite create_schema
    ⟨Value.str "bible:NASB1995", Value.str "old", Value.str "t1", Value.int 1⟩
    ⟨Value.str "bible:NASB1995", Value.str "new", Value.str "t2", Value.int 2⟩
    rfl).1

theorem except_bind_ok {α β : Type} {x : Except String α} {f : α → Except String β}
    {b : β} (h : (x >>= f) = .ok b) : ∃ a, x = .ok a ∧ f a = .ok b := by
  cases x with
  | error e => exact absurd h (by simp [Bind.bind, Except.bind])
  | ok a => exact ⟨a, rfl, by simpa [Bind.bind, Except.bind] using h⟩

/-- C7: an empty row sequence makes the batch loader a no-op on the table,
and an empty topic-references list in the topics bundle leaves
`offline_topic_references` unchanged (zero rows added) without error. -/
theorem c7_empty_sequence_noop {σ ρ : Type} (ins : σ → ρ → σ) (s : σ) (n : Nat)
    (db db' : DB) (topics explanations : List Obj)
    (h : insert_topics db topics [] explanations = .ok db') :
    insert_in_batches ins s ([] : List ρ) n = s
  ∧ db'.offline_topic_references = db.offline_topic_references := by
  constructor
  · rw [insert_in_batches, chunksOf_nil]
    rfl
  · rcases insert_topics_ok_iff.mp h with ⟨tr, rr, er, _, hrr, _, hdb⟩
    have hrrnil : rr = [] := by
      have h2 := hrr.symm.trans (rfl : List.mapM mapTopicRef ([] : List Obj) = Except.ok [])
      injection h2
    subst hrrnil
    subst hdb
    by_cases he : er.isEmpty <;> simp [he]

/-- Witness for C7: a batch load of zero rows into a one-row table keeps the
table, and `insert_topics` with an empty references list keeps a concrete
non-empty `offline_topic_references` table. -/
theorem c7_empty_sequence_noop_witness :
    insert_in_batches (insertOrIgnore verseKey)
        [⟨Value.str "NASB1995", Value.int 1, Value.int 1, Value.int 1, Value.str "In"⟩]
        ([] : List VerseRow) 1000
      = [⟨Value.str "NASB1995", Value.int 1, Value.int 1, Value.int 1, Value.str "In"⟩]
  ∧ DB.offline_topic_references
      (⟨[], [], [], [⟨Value.str "t1", Value.str "Genesis 1:1"⟩], [], [], [], [], []⟩ : DB)
      = DB.offline_topic_references
      (⟨[], [], [], [⟨Value.str "t1", Value.str "Genesis 1:1"⟩], [], [], [], [], []⟩ : DB) := by
  have h : insert_topics
      ⟨[], [], [], [⟨Value.str "t1", Value.str "Genesis 1:1"⟩], [], [], [], [], []⟩
      [] [] [] =
      .ok ⟨[], [], [], [⟨Value.str "t1", Value.str "Genesis 1:1"⟩], [], [], [], [], []⟩ :=
    insert_topics_ok_iff.mpr ⟨[], [], [], rfl, rfl, rfl, by simp [insert_in_batches_batchsize]⟩
  exact c7_empty_sequence_noop (insertOrIgnore verseKey)
    [⟨Value.str "NASB1995", Value.int 1, Value.int 1, Value.int 1, Value.str "In"⟩]
    1000 _ _ [] [] h

/-- C8: the tables `offline_notes`, `offline_highlights` and
`offline_bookmarks` are created by the schema initializer but written by no
step of the pipeline: after every complete run they hold zero rows. -/
theorem c8_user_tables_never_written {m : Manifest}
    {verses commentaries topics references explanations : List Obj}
    {nowIso : String} {verseSize commentarySize topicsSize : Int} {db' : DB}
    (h : mainLoad m verses commentaries topics references explanations nowIso
        verseSize commentarySize topicsSize = .ok db') :
    db'.offline_notes = [] ∧ db'.offline_highlights = [] ∧
    db'.offline_bookmarks = [] := by
  unfold mainLoad at h
  obtain ⟨tri, hlm, h⟩ := except_bind_ok h
  obtain ⟨nasb, enC, enT⟩ := tri
  obtain ⟨dbv, h1, h⟩ := except_bind_ok h
  obtain ⟨dbc, h2, h⟩ := except_bind_ok h
  obtain ⟨dbt, h3, h⟩ := except_bind_ok h
  obtain ⟨u1, h4, h⟩ := except_bind_ok h
  obtain ⟨u2, h5, h⟩ := except_bind_ok h
  obtain ⟨u3, h6, h⟩ := except_bind_ok h
  have hdb : db' = writeMetadata dbt
      [⟨Value.str "bible:NASB1995", u1, Value.str nowIso, Value.int verseSize⟩,
       ⟨Value.str "commentary:en-US", u2, Value.str nowIso, Value.int commentarySize⟩,
       ⟨Value.str "topics:en", u3, Value.str nowIso, Value.int topicsSize⟩] := by
    simpa [pure, Except.pure] using h.symm
  obtain ⟨-, -, -, -, hn1, hh1, hb1, -⟩ := insert_verses_frame h1
  obtain ⟨-, -, -, -, hn2, hh2, hb2, -⟩ := insert_commentaries_frame h2
  obtain ⟨-, -, hn3, hh3, hb3, -⟩ := insert_topics_frame h3
  subst hdb
  refine ⟨?_, ?_, ?_⟩
  · rw [(writeMetadata_frame dbt _).2.2.2.2.2.1, hn3, hn2, hn1]
    rfl
  · rw [(writeMetadata_frame dbt _).2.2.2.2.2.2.1, hh3, hh2, hh1]
    rfl
  · rw [(writeMetadata_frame dbt _).2.2.2.2.2.2.2, hb3, hb2, hb1]
    rfl

/-- Witness for C8: a complete run on a minimal manifest and empty content
payloads leaves the three user tables empty. -/
theorem c8_user_tables_never_written_witness :
    DB.offline_notes
      (writeMetadata create_schema
        [⟨Value.str "bible:NASB1995", Value.str "2024-01-01", Value.str "now",
          Value.int 3⟩,
         ⟨Value.str "commentary:en-US", Value.str "2024-02-01", Value.str "now",
          Value.int 4⟩,
         ⟨Value.str "topics:en", Value.str "2024-03-01", Value.str "now",
          Value.int 5⟩]) = [] := by
  have hv : insert_verses create_schema "NASB1995" [] = .ok create_schema :=
    insert_verses_ok_iff.mpr ⟨[], rfl, by rw [insert_in_batches_batchsize]; rfl⟩
  have hc : insert_commentaries create_schema "en-US" [] = .ok create_schema :=
    insert_commentaries_ok_iff.mpr ⟨[], rfl, by rw [insert_in_batches_batchsize]; rfl⟩
  have ht : insert_topics create_schema [] [] [] = .ok create_schema :=
    insert_topics_ok_iff.mpr
      ⟨[], [], [], rfl, rfl, rfl, by simp [insert_in_batches_batchsize]⟩
  have h : mainLoad
      ⟨[[("key", Value.str "NASB1995"), ("updated_at", Value.str "2024-01-01")]],
       [[("code", Value.str "en-US"), ("updated_at", Value.str "2024-02-01")]],
       [[("code", Value.str "en"), ("updated_at", Value.str "2024-03-01")]]⟩
      [] [] [] [] [] "now" 3 4 5 =
      .ok (writeMetadata create_schema
        [⟨Value.str "bible:NASB1995", Value.str "2024-01-01", Value.str "now",
          Value.int 3⟩,
         ⟨Value.str "commentary:en-US", Value.str "2024-02-01", Value.str "now",
          Value.int 4⟩,
         ⟨Value.str "topics:en", Value.str "2024-03-01", Value.str "now",
          Value.int 5⟩]) := by
    unfold mainLoad
    rw [show lookupManifestEntries
        ⟨[[("key", Value.str "NASB1995"), ("updated_at", Value.str "2024-01-01")]],
         [[("code", Value.str "en-US"), ("updated_at", Value.str "2024-02-01")]],
         [[("code", Value.str "en"), ("updated_at", Value.str "2024-03-01")]]⟩
        = Except.ok
            ([("key", Value.str "NASB1995"), ("updated_at", Value.str "2024-01-01")],
             [("code", Value.str "en-US"), ("updated_at", Value.str "2024-02-01")],
             [("code", Value.str "en"), ("updated_at", Value.str "2024-03-01")])
      from rfl]
    simp only [Bind.bind, Except.bind, hv, hc, ht]
    rfl
  exact (c8_user_tables_never_written h).1

/-- C10: each loader modifies only its own target tables: `insert_verses`
only `offline_verses`, `insert_commentaries` only `offline_explanations`,
and `insert_topics` only the three topic tables; all other tables are
unchanged by each call. -/
theorem c10_loader_frame :
    (∀ (db db' : DB) (vk : String) (verses : List Obj),
      insert_verses db vk verses = .ok db' →
      db'.offline_explanations = db.offline_explanations
      ∧ db'.offline_topics = db.offline_topics
      ∧ db'.offline_topic_references = db.offline_topic_references
      ∧ db'.offline_topic_explanations = db.offline_topic_explanations
      ∧ db'.offline_notes = db.offline_notes
      ∧ db'.offline_highlights = db.offline_highlights
      ∧ db'.offline_bookmarks = db.offline_bookmarks
      ∧ db'.offline_metadata = db.offline_metadata)
  ∧ (∀ (db db' : DB) (lc : String) (entries : List Obj),
      insert_commentaries db lc entries = .ok db' →
      db'.offline_verses = db.offline_verses
      ∧ db'.offline_topics = db.offline_topics
      ∧ db'.offline_topic_references = db.offline_topic_references
      ∧ db'.offline_topic_explanations = db.offline_topic_explanations
      ∧ db'.offline_notes = db.offline_notes
      ∧ db'.offline_highlights = db.offline_highlights
      ∧ db'.offline_bookmarks = db.offline_bookmarks
      ∧ db'.offline_metadata = db.offline_metadata)
  ∧ (∀ (db db' : DB) (topics references explanations : List Obj),
      insert_topics db topics references explanations = .ok db' →
      db'.offline_verses = db.offline_verses
      ∧ db'.offline_explanations = db.offline_explanations
      ∧ db'.offline_notes = db.offline_notes
      ∧ db'.offline_highlights = db.offline_highlights
      ∧ db'.offline_bookmarks = db.offline_bookmarks
      ∧ db'.offline_metadata = db.offline_metadata) :=
  ⟨fun _ _ _ _ h => insert_verses_frame h,
   fun _ _ _ _ h => insert_commentaries_frame h,
   fun _ _ _ _ _ h => insert_topics_frame h⟩

/-- Witness for C10: loading one concrete verse object changes only the
verses table; the metadata table (picked as a representative) is unchanged. -/
theorem c10_loader_frame_witness :
    DB.offline_metadata
      (⟨[⟨Value.str "NASB1995", Value.int 1, Value.int 1, Value.int 1,
          Value.str "In the beginning"⟩], [], [], [], [], [], [], [], []⟩ : DB)
      = create_schema.offline_metadata := by
  have h1 : insert_verses create_schema "NASB1995"
      [[("book_id", Value.int 1), ("chapter_number", Value.int 1),
        ("verse_number", Value.int 1), ("text", Value.str "In the beginning")]]
      = .ok ⟨[⟨Value.str "NASB1995", Value.int 1, Value.int 1, Value.int 1,
          Value.str "In the beginning"⟩], [], [], [], [], [], [], [], []⟩ :=
    insert_verses_ok_iff.mpr
      ⟨[⟨Value.str "NASB1995", Value.int 1, Value.int 1, Value.int 1,
         Value.str "In the beginning"⟩], rfl,
       by rw [insert_in_batches_batchsize]; rfl⟩
  exact (c10_loader_frame.1 create_schema _ "NASB1995" _ h1).2.2.2.2.2.2.2

end SeedDB
